import Mathlib

set_option autoImplicit false

/-!
Shallow embedding of the FMM-accelerated boundary-operator assembly code of
the bempp repository (files: fmm_transform.cpp, fmm_global_assembler.cpp,
octree_node.hpp, separable_numerical_test_kernel_trial_integrator.hpp/imp,
grid_function.cpp), together with theorems settling the frozen claims.

C++ real arithmetic (`double` / `CoordinateType`) is embedded as `ℝ`, complex
result values (`ValueType` / `ResultType`) as `ℂ`, machine integers as `ℕ`/`ℤ`
(all index values involved stay far from any overflow), and a C++ `throw` as
the `.error` case of `Except String`.
-/

/-- A 3-vector, standing for `arma::Col<CoordinateType>` of length 3. -/
abbrev Vec3 : Type := ℝ × ℝ × ℝ

/-- Componentwise difference of 3-vectors (`arma` vector subtraction). -/
def sub3 (a b : Vec3) : Vec3 := (a.1 - b.1, a.2.1 - b.2.1, a.2.2 - b.2.2)

/-- Dot product of 3-vectors (`arma::dot`). -/
def dot3 (a b : Vec3) : ℝ := a.1 * b.1 + a.2.1 * b.2.1 + a.2.2 * b.2.2

/-- Embedding of the `FmmHighFreq<ValueType>` object (fmm_transform.cpp) right
after construction, for complex `ValueType`.  `kappa` and the constructor
arguments `Lleaf` (the argument named `L`) and `levels` are stored; the data
the constructor derives from them (`m_Ls`, the interpolators, the Gauss
points) is recovered by the definitions below exactly as the constructor
computes it.

Two collaborators whose code is outside this repository's sources are
modelled as function-valued fields:

* `legendreNodes`/`legendreWeights` — Modelled from the spec: `legendre_roots`
  (Gauss–Legendre quadrature node/weight computation, declared but not
  implemented in the sources); `legendreNodes N l` is `costheta[l]` and
  `legendreWeights N l` is `wtheta[l]` after `legendre_roots(N, costheta,
  wtheta)`.  No claim depends on the numerical values of the nodes.
* `zbesh` — Modelled from the spec: the external complex Bessel routine
  `amos::zbesh` ("documented to produce 5 distinct error codes: success,
  input error, overflow, partial-precision loss, total-precision loss,
  non-convergence"); `zbesh zr zi nu` returns `(cyr, cyi, ierr)`.
* `interpolateOnSphere` — Modelled from the spec: the external
  `InterpolateOnSphere(Lfrom, Lto)` operator, "a precomputed interpolation
  operator" between two quadrature orders; `interpolateOnSphere Lfrom Lto`
  is the action of the operator built from orders `Lfrom` and `Lto`. -/
structure FmmHighFreq where
  kappa : ℂ
  Lleaf : ℕ
  levels : ℕ
  legendreNodes : ℕ → ℕ → ℝ
  legendreWeights : ℕ → ℕ → ℝ
  zbesh : ℝ → ℝ → ℝ → ℝ × ℝ × ℤ
  interpolateOnSphere : ℤ → ℤ → (ℕ → ℂ) → (ℕ → ℂ)

/-- The quantity `Llevel` computed inside the `FmmHighFreq` constructor for a
given level: with `boxsize = 2` and `prec = 8`,
`sqrt(3.)*abs(kappa)*boxsize/pow(2, level)
 + prec*log10(sqrt(3.)*abs(kappa)*boxsize/pow(2, level)+M_PI)`. -/
noncomputable def Llevel (kappaAbs : ℝ) (level : ℕ) : ℝ :=
  Real.sqrt 3 * kappaAbs * 2 / 2 ^ level +
    8 * Real.logb 10 (Real.sqrt 3 * kappaAbs * 2 / 2 ^ level + Real.pi)

/-- The vector `m_Ls` as the `FmmHighFreq` constructor leaves it: it has
`levels - 1` entries; entry `levels - 2` (the leaf level `levels`) is set
first to the constructor argument `L`, then the loop over
`level = 2 .. levels-1` sets entry `level - 2` to `ceil(Llevel)`.  Entries
beyond the vector's extent are the value-initialised `0`. -/
noncomputable def FmmHighFreq.mLs (F : FmmHighFreq) (i : ℕ) : ℤ :=
  if i = F.levels - 2 then (F.Lleaf : ℤ)
  else if i + 2 ≤ F.levels - 1 then ⌈Llevel (Complex.abs F.kappa) (i + 2)⌉
  else 0

/-- `unsigned L = m_Ls[level-2]` — the truncation order the translation
operators `M2M`/`L2L`/`M2L` read for a given level. -/
noncomputable def FmmHighFreq.LatLevel (F : FmmHighFreq) (level : ℕ) : ℕ :=
  (F.mLs (level - 2)).toNat

/-- The quadrature direction `khat` that the loops in `M2M`/`L2L`/`M2L`
compute for flat index `p = ntheta*(2L+1) + m`:
`(sintheta[ntheta]*cosphi[m], sintheta[ntheta]*sinphi[m], costheta[ntheta])`
with `costheta` the Gauss–Legendre nodes for `L+1` points,
`sintheta[l] = sqrt(1-costheta[l]^2)` and `cosphi[m] = cos(2*pi*m/(2L+1))`,
`sinphi[m] = sin(2*pi*m/(2L+1))`. -/
noncomputable def quadDir (F : FmmHighFreq) (L : ℕ) (p : ℕ) : Vec3 :=
  let ntheta := p / (2 * L + 1)
  let m := p % (2 * L + 1)
  let ct := F.legendreNodes (L + 1) ntheta
  let st := Real.sqrt (1 - ct ^ 2)
  (st * Real.cos (2 * Real.pi * m / (2 * L + 1)),
   st * Real.sin (2 * Real.pi * m / (2 * L + 1)),
   ct)

/-- `FmmHighFreq::M2M(childPosition, parentPosition, level)`: the transfer
vector with entry `T[p] = exp(-m_kappa * dot(R, khat))` where
`R = parentPosition - childPosition`.  The vector is presented as a function
of the flat quadrature index `p`. -/
noncomputable def FmmHighFreq.M2M (F : FmmHighFreq)
    (childPosition parentPosition : Vec3) (level : ℕ) : ℕ → ℂ :=
  fun p =>
    let L := F.LatLevel level
    let R := sub3 parentPosition childPosition
    Complex.exp (-F.kappa * (dot3 R (quadDir F L p) : ℂ))

/-- `FmmHighFreq::L2L(parentPosition, childPosition, level)`: literally
`return M2M(parentPosition, childPosition, level);`. -/
noncomputable def FmmHighFreq.L2L (F : FmmHighFreq)
    (parentPosition childPosition : Vec3) (level : ℕ) : ℕ → ℂ :=
  F.M2M parentPosition childPosition level

theorem dot3_sub3_comm (a b d : Vec3) : dot3 (sub3 a b) d = -dot3 (sub3 b a) d := by
  simp only [dot3, sub3]
  ring

/-- C1: for every level and every pair of box-centre positions, the `M2M`
transfer vector composed entrywise with the `L2L` transfer vector with
reversed arguments is the all-ones identity transfer factor (the offset in
the exponential cancels exactly); in particular when the child position
equals the parent position each transfer vector is itself the identity
factor. -/
theorem M2M_L2L_roundtrip_identity (F : FmmHighFreq) (c p : Vec3)
    (level : ℕ) (i : ℕ) :
    F.M2M c p level i * F.L2L p c level i = 1 ∧ F.M2M c c level i = 1 := by
  constructor
  · show Complex.exp _ * Complex.exp _ = 1
    rw [← Complex.exp_add, ← Complex.exp_zero]
    congr 1
    rw [dot3_sub3_comm c p]
    push_cast
    ring
  · show Complex.exp _ = 1
    rw [← Complex.exp_zero]
    congr 1
    have : sub3 c c = (0, 0, 0) := by simp [sub3]
    rw [this]
    simp [dot3]

/-- The per-level quantity `Llevel` is antitone in the level: halving the box
size can only decrease `x + 8*log10(x + pi)` since `x ↦ x/2^level` is
antitone for `x ≥ 0` and both summands are monotone in `x`. -/
theorem Llevel_antitone (kappaAbs : ℝ) (hk : 0 ≤ kappaAbs) {l1 l2 : ℕ}
    (h : l1 ≤ l2) : Llevel kappaAbs l2 ≤ Llevel kappaAbs l1 := by
  have hc : 0 ≤ Real.sqrt 3 * kappaAbs * 2 :=
    mul_nonneg (mul_nonneg (Real.sqrt_nonneg 3) hk) (by norm_num)
  have hpow : (2 : ℝ) ^ l1 ≤ 2 ^ l2 := by
    apply pow_le_pow_right₀ (by norm_num) h
  have hpos1 : (0 : ℝ) < 2 ^ l1 := by positivity
  have hx : Real.sqrt 3 * kappaAbs * 2 / 2 ^ l2 ≤
      Real.sqrt 3 * kappaAbs * 2 / 2 ^ l1 :=
    div_le_div_of_nonneg_left hc hpos1 hpow
  have hxnn : (0 : ℝ) ≤ Real.sqrt 3 * kappaAbs * 2 / 2 ^ l2 := by positivity
  unfold Llevel
  have hlog : Real.logb 10 (Real.sqrt 3 * kappaAbs * 2 / 2 ^ l2 + Real.pi) ≤
      Real.logb 10 (Real.sqrt 3 * kappaAbs * 2 / 2 ^ l1 + Real.pi) := by
    apply Real.logb_le_logb_of_le (by norm_num)
    · have := Real.pi_pos
      linarith
    · linarith
  linarith

/-- C3 (amended): after `FmmHighFreq` construction the per-level truncation
orders are a NON-INCREASING function of tree depth on the levels whose order
the constructor computes from the error-bound formula (levels `2` to
`levels - 1`): for `2 ≤ l1 ≤ l2 ≤ levels - 1` the order stored for the
deeper level `l2` is at most the order stored for the coarser level `l1`.
(The leaf entry, index `levels - 2`, holds the user-supplied argument `L`
instead.) -/
theorem mLs_nonincreasing_with_depth (F : FmmHighFreq) (l1 l2 : ℕ)
    (h1 : 2 ≤ l1) (h12 : l1 ≤ l2) (h2 : l2 ≤ F.levels - 1) :
    F.mLs (l2 - 2) ≤ F.mLs (l1 - 2) := by
  have hlev : 3 ≤ F.levels := by omega
  have e1 : l1 - 2 ≠ F.levels - 2 := by omega
  have e2 : l2 - 2 ≠ F.levels - 2 := by omega
  have r1 : l1 - 2 + 2 = l1 := by omega
  have r2 : l2 - 2 + 2 = l2 := by omega
  have b1 : l1 - 2 + 2 ≤ F.levels - 1 := by omega
  have b2 : l2 - 2 + 2 ≤ F.levels - 1 := by omega
  unfold FmmHighFreq.mLs
  rw [if_neg e1, if_neg e2, if_pos b1, if_pos b2, r1, r2]
  exact Int.ceil_mono (Llevel_antitone _ (Complex.abs.nonneg _) h12)

/-- A concrete `FmmHighFreq` configuration: wavenumber `64`, leaf order `10`,
four levels.  The externally-implemented collaborators are instantiated
trivially; no theorem below depends on their values. -/
noncomputable def fmmKappa64 : FmmHighFreq where
  kappa := 64
  Lleaf := 10
  levels := 4
  legendreNodes := fun _ _ => 0
  legendreWeights := fun _ _ => 0
  zbesh := fun _ _ _ => (0, 0, 0)
  interpolateOnSphere := fun _ _ c => c

theorem sqrt_three_gt : (1.7 : ℝ) < Real.sqrt 3 := by
  rw [show (1.7 : ℝ) = 1.7 from rfl]
  rw [Real.lt_sqrt (by norm_num)]
  norm_num

theorem sqrt_three_lt : Real.sqrt 3 < (1.8 : ℝ) := by
  rw [Real.sqrt_lt' (by norm_num)]
  norm_num

theorem logb_ten_hundred : Real.logb 10 100 = 2 := by
  rw [show (100 : ℝ) = 10 ^ (2 : ℕ) by norm_num, Real.logb_pow,
    Real.logb_self_eq_one (by norm_num)]
  norm_num

/-- `Llevel` for `|kappa| = 64` at level 3 is below 45. -/
theorem Llevel64_level3_lt : Llevel 64 3 ≤ 45 := by
  unfold Llevel
  have hx : Real.sqrt 3 * 64 * 2 / 2 ^ 3 = 16 * Real.sqrt 3 := by ring
  rw [hx]
  have hs := sqrt_three_lt
  have hs0 := sqrt_three_gt
  have hpi := Real.pi_lt_d2
  have hpi0 := Real.pi_pos
  have harg : 16 * Real.sqrt 3 + Real.pi ≤ 100 := by nlinarith
  have hargpos : (0 : ℝ) < 16 * Real.sqrt 3 + Real.pi := by nlinarith
  have hlog : Real.logb 10 (16 * Real.sqrt 3 + Real.pi) ≤ 2 := by
    rw [← logb_ten_hundred]
    exact Real.logb_le_logb_of_le (by norm_num) hargpos harg
  nlinarith

/-- `Llevel` for `|kappa| = 64` at level 2 is above 45. -/
theorem Llevel64_level2_gt : (45 : ℝ) < Llevel 64 2 := by
  unfold Llevel
  have hx : Real.sqrt 3 * 64 * 2 / 2 ^ 2 = 32 * Real.sqrt 3 := by ring
  rw [hx]
  have hs := sqrt_three_gt
  have hpi0 := Real.pi_pos
  have harg : (10 : ℝ) ≤ 32 * Real.sqrt 3 + Real.pi := by nlinarith
  have hlog : (1 : ℝ) ≤ Real.logb 10 (32 * Real.sqrt 3 + Real.pi) := by
    rw [← Real.logb_self_eq_one (b := 10) (by norm_num)]
    exact Real.logb_le_logb_of_le (by norm_num) (by norm_num) harg
  nlinarith

/-- C3 (counterexample): in the configuration `fmmKappa64` the truncation
order stored for level 3 (index 1) is strictly SMALLER than the order stored
for the coarser level 2 (index 0), so the expansion order is not a
non-decreasing function of tree depth. -/
theorem mLs_not_nondecreasing_cex : fmmKappa64.mLs 1 < fmmKappa64.mLs 0 := by
  have habs : Complex.abs (fmmKappa64.kappa) = 64 := by
    simp [fmmKappa64]
  unfold FmmHighFreq.mLs
  rw [habs]
  norm_num [fmmKappa64]
  calc ⌈Llevel 64 3⌉ ≤ 45 := Int.ceil_le.mpr (by exact_mod_cast Llevel64_level3_lt)
    _ < ⌈Llevel 64 2⌉ := Int.lt_ceil.mpr (by exact_mod_cast Llevel64_level2_gt)

/-- C3 (witness for the amended theorem): in the concrete configuration
`fmmKappa64` the hypotheses hold for the level pair (2, 3) and the stored
order for level 3 is at most the stored order for level 2. -/
theorem mLs_nonincreasing_with_depth_witness :
    (2 ≤ 2 ∧ 2 ≤ 3 ∧ 3 ≤ fmmKappa64.levels - 1) ∧
      fmmKappa64.mLs (3 - 2) ≤ fmmKappa64.mLs (2 - 2) :=
  ⟨by refine ⟨le_refl 2, by norm_num, ?_⟩; show 3 ≤ 4 - 1; norm_num,
   mLs_nonincreasing_with_depth fmmKappa64 2 3 (le_refl 2) (by norm_num)
     (show 3 ≤ 4 - 1 by norm_num)⟩

/-- `m_interpolatorsUpwards[i]` as built by the `FmmHighFreq` constructor:
`InterpolateOnSphere(m_Ls[i+1], m_Ls[i])` (with `i = level - m_topLevel`),
represented by its pair of quadrature orders. -/
noncomputable def FmmHighFreq.interpolatorsUpwards (F : FmmHighFreq) (i : ℕ) :
    ℤ × ℤ := (F.mLs (i + 1), F.mLs i)

/-- `m_interpolatorsDownwards[i]` as built by the constructor:
`InterpolateOnSphere(m_Ls[i], m_Ls[i+1])`. -/
noncomputable def FmmHighFreq.interpolatorsDownwards (F : FmmHighFreq) (i : ℕ) :
    ℤ × ℤ := (F.mLs i, F.mLs (i + 1))

/-- Applying a stored `InterpolateOnSphere` operator (held as its pair of
quadrature orders) to a coefficient vector, via the modelled external
`interpolateOnSphere` action. -/
def FmmHighFreq.applyInterp (F : FmmHighFreq) (op : ℤ × ℤ) (c : ℕ → ℂ) :
    ℕ → ℂ := F.interpolateOnSphere op.1 op.2 c

/-- `FmmHighFreq::interpolate(levelOld, levelNew, coefficientsOld,
coefficientsNew)`: `if (levelOld > levelNew)` apply
`m_interpolatorsUpwards[levelNew-2]`, else apply
`m_interpolatorsDownwards[levelOld-2]`. -/
noncomputable def FmmHighFreq.interpolate (F : FmmHighFreq)
    (levelOld levelNew : ℕ) (coefficientsOld : ℕ → ℂ) : ℕ → ℂ :=
  if levelNew < levelOld then
    F.applyInterp (F.interpolatorsUpwards (levelNew - 2)) coefficientsOld
  else
    F.applyInterp (F.interpolatorsDownwards (levelOld - 2)) coefficientsOld

/-- C7: `interpolate` infers the direction solely from comparing the two
level arguments — for `levelOld > levelNew` it applies the upward
interpolation operator stored for the coarser level (`levelNew`), otherwise
the downward (anterpolation) operator stored for `levelOld` — and in both
cases the operator applied is the precomputed `InterpolateOnSphere` operator
connecting the quadrature order of `levelOld` to the quadrature order of
`levelNew` (the two adjacent levels). -/
theorem interpolate_direction (F : FmmHighFreq) (levelOld levelNew : ℕ)
    (c : ℕ → ℂ) (hOld : 2 ≤ levelOld) (hNew : 2 ≤ levelNew)
    (hadj : levelOld = levelNew + 1 ∨ levelNew = levelOld + 1) :
    F.interpolate levelOld levelNew c =
      (if levelNew < levelOld then
        F.applyInterp (F.interpolatorsUpwards (levelNew - 2)) c
      else
        F.applyInterp (F.interpolatorsDownwards (levelOld - 2)) c) ∧
    F.interpolate levelOld levelNew c =
      F.interpolateOnSphere (F.mLs (levelOld - 2)) (F.mLs (levelNew - 2)) c := by
  refine ⟨rfl, ?_⟩
  rcases hadj with h | h
  · have hlt : levelNew < levelOld := by omega
    have hidx : levelNew - 2 + 1 = levelOld - 2 := by omega
    unfold FmmHighFreq.interpolate
    rw [if_pos hlt]
    unfold FmmHighFreq.applyInterp FmmHighFreq.interpolatorsUpwards
    rw [hidx]
  · have hlt : ¬ levelNew < levelOld := by omega
    have hidx : levelOld - 2 + 1 = levelNew - 2 := by omega
    unfold FmmHighFreq.interpolate
    rw [if_neg hlt]
    unfold FmmHighFreq.applyInterp FmmHighFreq.interpolatorsDownwards
    rw [hidx]

/-- C7 (witness): the direction theorem instantiated at the concrete
configuration `fmmKappa64` for the adjacent level pair `levelOld = 3`,
`levelNew = 2` and the zero coefficient vector. -/
theorem interpolate_direction_witness :
    (2 ≤ 3 ∧ 2 ≤ 2 ∧ ((3 : ℕ) = 2 + 1 ∨ (2 : ℕ) = 3 + 1)) ∧
    (fmmKappa64.interpolate 3 2 (fun _ => 0) =
      (if 2 < 3 then
        fmmKappa64.applyInterp (fmmKappa64.interpolatorsUpwards (2 - 2)) (fun _ => 0)
      else
        fmmKappa64.applyInterp (fmmKappa64.interpolatorsDownwards (3 - 2)) (fun _ => 0)) ∧
    fmmKappa64.interpolate 3 2 (fun _ => 0) =
      fmmKappa64.interpolateOnSphere (fmmKappa64.mLs (3 - 2))
        (fmmKappa64.mLs (2 - 2)) (fun _ => 0)) :=
  ⟨⟨by norm_num, le_refl 2, Or.inl rfl⟩,
   interpolate_direction fmmKappa64 3 2 (fun _ => 0) (by norm_num) (le_refl 2)
     (Or.inl rfl)⟩

/-- The Legendre polynomial of the first kind (the external
`boost::math::legendre_p`), via the standard three-term recurrence. -/
noncomputable def legendre_p : ℕ → ℝ → ℝ
  | 0, _ => 1
  | 1, x => x
  | n + 2, x =>
      ((2 * (n : ℝ) + 3) * x * legendre_p (n + 1) x -
        ((n : ℝ) + 1) * legendre_p n x) / ((n : ℝ) + 2)

/-- The `amosErrorMessages` table of `FmmHighFreq::M2L`, indexed by `ierr`. -/
def amosErrorMessage (ierr : ℤ) : String :=
  if ierr = 0 then "IERR=0, NORMAL RETURN - COMPUTATION COMPLETED"
  else if ierr = 1 then "IERR=1, INPUT ERROR   - NO COMPUTATION"
  else if ierr = 2 then
    "IERR=2, OVERFLOW      - NO COMPUTATION, FNU IS TOO LARGE OR CABS(Z) IS TOO SMALL OR BOTH"
  else if ierr = 3 then
    "IERR=3, CABS(Z) OR FNU+N-1 LARGE - COMPUTATION DONE BUT LOSSES OF SIGNIFCANCE BY ARGUMENT REDUCTION PRODUCE LESS THAN HALF OF MACHINE ACCURACY"
  else if ierr = 4 then
    "IERR=4, CABS(Z) OR FNU+N-1 TOO LARGE - NO COMPUTATION BECAUSE OF COMPLETE LOSSES OF SIGNIFICANCE BY ARGUMENT REDUCTION"
  else "IERR=5, ERROR              - NO COMPUTATION, ALGORITHM TERMINATION CONDITION NOT MET"

/-- The truncation order `L = m_Ls[level-2]` read at the top of
`FmmHighFreq::M2L`. -/
noncomputable def FmmHighFreq.M2LsafeOrder (F : FmmHighFreq) (level : ℕ) : ℕ :=
  (F.mLs (level - 2)).toNat

/-- The loop bound `Ldash` of `FmmHighFreq::M2L`: the source sets
`unsigned int Ldash = L;` (the line `L = (3*L)/4;` that would create a
window region `L < l ≤ Ldash` is commented out). -/
noncomputable def FmmHighFreq.M2Lloopmax (F : FmmHighFreq) (level : ℕ) : ℕ :=
  F.M2LsafeOrder level

/-- The windowing factor `CLLdash` of an expansion term of order `l` in
`FmmHighFreq::M2L`: initialised to `1.`, and overwritten with
`pow(cos((l-L)*pi/(2*(Ldash-L))), 2)` only in the `l > L` branch. -/
noncomputable def FmmHighFreq.M2Lwindow (F : FmmHighFreq) (level l : ℕ) : ℝ :=
  if l ≤ F.M2LsafeOrder level then 1
  else
    Real.cos (((l : ℝ) - (F.M2LsafeOrder level : ℝ)) * Real.pi /
      (2 * ((F.M2Lloopmax level : ℝ) - (F.M2LsafeOrder level : ℝ)))) ^ 2

/-- The separation distance `r = norm(fieldCentre - sourceCentre, 2)` used by
`FmmHighFreq::M2L`. -/
noncomputable def M2Lseparation (sourceCentre fieldCentre : Vec3) : ℝ :=
  let xvec := sub3 fieldCentre sourceCentre
  Real.sqrt (dot3 xvec xvec)

/-- The call `amos::zbesh(&zr,&zi,&nu,...)` made by `FmmHighFreq::M2L` for
expansion order `l`: `z = i*m_kappa*r`, `nu = l+0.5`. -/
noncomputable def FmmHighFreq.M2Lzbesh (F : FmmHighFreq) (r : ℝ) (l : ℕ) :
    ℝ × ℝ × ℤ :=
  let z : ℂ := Complex.I * F.kappa * (r : ℂ)
  F.zbesh z.re z.im ((l : ℝ) + 1 / 2)

/-- The error flag `ierr` that `amos::zbesh` reports to `FmmHighFreq::M2L`
for expansion order `l`. -/
noncomputable def FmmHighFreq.M2Lierr (F : FmmHighFreq) (r : ℝ) (l : ℕ) : ℤ :=
  (F.M2Lzbesh r l).2.2

/-- The factor `scaledhl = -m_kappa/(16*pi*pi)*pow(i,l)*(2*l+1)*hl` of
`FmmHighFreq::M2L`, with
`hl = sqrt(pi/(2*z))*(cyr + i*cyi)` built from the `zbesh` output. -/
noncomputable def FmmHighFreq.M2Lscaledhl (F : FmmHighFreq) (r : ℝ) (l : ℕ) : ℂ :=
  let z : ℂ := Complex.I * F.kappa * (r : ℂ)
  let res := F.M2Lzbesh r l
  let hl : ℂ :=
    ((Real.pi : ℂ) / (2 * z)) ^ ((1 : ℂ) / 2) *
      ((res.1 : ℂ) + Complex.I * (res.2.1 : ℂ));
  -F.kappa / (16 * (Real.pi : ℂ) ^ 2) * Complex.I ^ l * (2 * (l : ℂ) + 1) * hl

/-- The clamped `costheta = dot(Rhat, khat)` of the inner quadrature loop of
`FmmHighFreq::M2L` (clamped to `[-1, 1]`). -/
noncomputable def FmmHighFreq.M2Lcostheta (F : FmmHighFreq) (L : ℕ)
    (Rhat : Vec3) (p : ℕ) : ℝ :=
  let c := dot3 Rhat (quadDir F L p)
  if 1 < c then 1 else if c < -1 then -1 else c

/-- The contribution `Tlocal = scaledhl*CLLdash*legendre_p(l, costheta)` of
expansion order `l` to entry `p` of the `M2L` transfer vector. -/
noncomputable def FmmHighFreq.M2Lterm (F : FmmHighFreq) (level : ℕ)
    (Rhat : Vec3) (scaledhl : ℂ) (CLLdash : ℝ) (l p : ℕ) : ℂ :=
  scaledhl * (CLLdash : ℂ) *
    (legendre_p l (F.M2Lcostheta (F.M2LsafeOrder level) Rhat p) : ℂ)

/-- The loop `for l = 0..Ldash` of `FmmHighFreq::M2L` over the remaining
list of expansion orders, accumulating into the transfer vector `T`.  In the
`l <= L` branch the Hankel factor is computed through `amos::zbesh` and a
non-zero `ierr` throws; in the (dead, see `M2L_no_terms_beyond_safe_order`)
`l > L` branch the C++ reads the never-initialised `scaledhl`, modelled
as 0, and multiplies by the `cos^2` window. -/
noncomputable def FmmHighFreq.M2Lloop (F : FmmHighFreq) (level : ℕ) (r : ℝ)
    (Rhat : Vec3) : List ℕ → (ℕ → ℂ) → Except String (ℕ → ℂ)
  | [], T => .ok T
  | l :: ls, T =>
    if l ≤ F.M2LsafeOrder level then
      if F.M2Lierr r l ≠ 0 then
        .error ("FmmHighFreq::M2L(x1, x2): AMOS: " ++
          amosErrorMessage (F.M2Lierr r l))
      else
        F.M2Lloop level r Rhat ls
          (fun p => T p + F.M2Lterm level Rhat (F.M2Lscaledhl r l) 1 l p)
    else
      F.M2Lloop level r Rhat ls
        (fun p => T p + F.M2Lterm level Rhat 0 (F.M2Lwindow level l) l p)

/-- `FmmHighFreq::M2L(sourceCentre, fieldCentre, boxSize, level)`: the
multipole-to-local transfer vector, or the thrown error. -/
noncomputable def FmmHighFreq.M2L (F : FmmHighFreq)
    (sourceCentre fieldCentre boxSize : Vec3) (level : ℕ) :
    Except String (ℕ → ℂ) :=
  let xvec := sub3 fieldCentre sourceCentre
  let r := M2Lseparation sourceCentre fieldCentre
  let Rhat : Vec3 := (xvec.1 / r, xvec.2.1 / r, xvec.2.2 / r)
  F.M2Lloop level r Rhat (List.range (F.M2Lloopmax level + 1)) (fun _ => 0)

/-- C2 (counterexample): in the concrete configuration `fmmKappa64` at
level 2, no expansion order `l` included in `M2L`'s loop (`l ≤ Ldash`)
lies beyond the safe truncation order `L`, because the source sets
`Ldash = L`; the claimed tapered terms do not exist. -/
theorem M2L_taper_cex :
    (∃ l, l ≤ fmmKappa64.M2Lloopmax 2 ∧ fmmKappa64.M2LsafeOrder 2 < l) = False := by
  simp only [eq_iff_iff, iff_false]
  rintro ⟨l, h1, h2⟩
  have he : fmmKappa64.M2Lloopmax 2 = fmmKappa64.M2LsafeOrder 2 := rfl
  omega

/-- C2 (amended): in `FmmHighFreq::M2L` no smooth windowing ever happens:
the loop bound `Ldash` equals the safe truncation order `L`, so every
expansion order `l` included in the loop satisfies `l ≤ L` and its
windowing factor `CLLdash` is exactly `1`; the `cos²` taper branch is dead
code. -/
theorem M2L_no_terms_beyond_safe_order (F : FmmHighFreq) (level l : ℕ)
    (h : l ≤ F.M2Lloopmax level) :
    l ≤ F.M2LsafeOrder level ∧ F.M2Lwindow level l = 1 := by
  have he : F.M2Lloopmax level = F.M2LsafeOrder level := rfl
  refine ⟨by omega, ?_⟩
  unfold FmmHighFreq.M2Lwindow
  rw [if_pos (by omega)]

/-- C2 (witness for the amended theorem): order `0` is included in the loop
at level 2 of `fmmKappa64`, is within the safe order, and carries windowing
factor `1`. -/
theorem M2L_no_terms_beyond_safe_order_witness :
    0 ≤ fmmKappa64.M2Lloopmax 2 ∧
      (0 ≤ fmmKappa64.M2LsafeOrder 2 ∧ fmmKappa64.M2Lwindow 2 0 = 1) :=
  ⟨Nat.zero_le _, M2L_no_terms_beyond_safe_order fmmKappa64 2 0 (Nat.zero_le _)⟩


/-- Unfolding equation for one step of the `M2L` expansion-order loop. -/
theorem M2Lloop_cons (F : FmmHighFreq) (level : ℕ) (r : ℝ) (Rhat : Vec3)
    (l : ℕ) (ls : List ℕ) (T : ℕ → ℂ) :
    F.M2Lloop level r Rhat (l :: ls) T =
      if l ≤ F.M2LsafeOrder level then
        if F.M2Lierr r l ≠ 0 then
          .error ("FmmHighFreq::M2L(x1, x2): AMOS: " ++
            amosErrorMessage (F.M2Lierr r l))
        else
          F.M2Lloop level r Rhat ls
            (fun p => T p + F.M2Lterm level Rhat (F.M2Lscaledhl r l) 1 l p)
      else
        F.M2Lloop level r Rhat ls
          (fun p => T p + F.M2Lterm level Rhat 0 (F.M2Lwindow level l) l p) :=
  rfl

/-- Unfolding equation for `M2L` in terms of its loop. -/
theorem M2L_eq_loop (F : FmmHighFreq)
    (sourceCentre fieldCentre boxSize : Vec3) (level : ℕ) :
    F.M2L sourceCentre fieldCentre boxSize level =
      F.M2Lloop level (M2Lseparation sourceCentre fieldCentre)
        ((sub3 fieldCentre sourceCentre).1 / M2Lseparation sourceCentre fieldCentre,
         (sub3 fieldCentre sourceCentre).2.1 / M2Lseparation sourceCentre fieldCentre,
         (sub3 fieldCentre sourceCentre).2.2 / M2Lseparation sourceCentre fieldCentre)
        (List.range (F.M2Lloopmax level + 1)) (fun _ => 0) :=
  rfl

/-- The `M2L` loop succeeds on a list of in-range expansion orders exactly
when `amos::zbesh` reports `ierr = 0` for each of them; the first failing
order throws. -/
theorem M2Lloop_ok_iff (F : FmmHighFreq) (level : ℕ) (r : ℝ) (Rhat : Vec3)
    (ls : List ℕ) (T : ℕ → ℂ)
    (hls : ∀ l ∈ ls, l ≤ F.M2LsafeOrder level) :
    (∃ T', F.M2Lloop level r Rhat ls T = .ok T') ↔
      ∀ l ∈ ls, F.M2Lierr r l = 0 := by
  induction ls generalizing T with
  | nil => simp [FmmHighFreq.M2Lloop]
  | cons l ls ih =>
    have hl : l ≤ F.M2LsafeOrder level := hls l (List.mem_cons_self l ls)
    have hls' : ∀ x ∈ ls, x ≤ F.M2LsafeOrder level :=
      fun x hx => hls x (List.mem_cons_of_mem l hx)
    rw [M2Lloop_cons, if_pos hl]
    by_cases hierr : F.M2Lierr r l = 0
    · rw [if_neg (by simp [hierr])]
      rw [ih _ hls']
      constructor
      · intro h x hx
        rcases List.mem_cons.mp hx with rfl | hx'
        · exact hierr
        · exact h x hx'
      · intro h x hx
        exact h x (List.mem_cons_of_mem l hx)
    · rw [if_pos (by simp [hierr])]
      constructor
      · rintro ⟨T', hT'⟩
        exact absurd hT' (by simp)
      · intro h
        exact absurd (h l (List.mem_cons_self l ls)) hierr

/-- C4: `FmmHighFreq::M2L` returns a transfer vector exactly when every
`amos::zbesh` Hankel evaluation it performs (one per expansion order
`l = 0..Ldash`) reports the success code `ierr = 0`; whenever any of those
evaluations reports a non-success code, `M2L` raises an error and returns
no transfer vector — no non-success code is silently ignored. -/
theorem M2L_error_iff_zbesh_failure (F : FmmHighFreq)
    (sourceCentre fieldCentre boxSize : Vec3) (level : ℕ) :
    ((∃ T, F.M2L sourceCentre fieldCentre boxSize level = .ok T) ↔
      ∀ l ≤ F.M2Lloopmax level,
        F.M2Lierr (M2Lseparation sourceCentre fieldCentre) l = 0) ∧
    ((∃ l, l ≤ F.M2Lloopmax level ∧
        F.M2Lierr (M2Lseparation sourceCentre fieldCentre) l ≠ 0) →
      ∃ e, F.M2L sourceCentre fieldCentre boxSize level = .error e) := by
  have hrange : ∀ l ∈ List.range (F.M2Lloopmax level + 1),
      l ≤ F.M2LsafeOrder level := by
    intro l hl
    have hm := List.mem_range.mp hl
    have he : F.M2Lloopmax level = F.M2LsafeOrder level := rfl
    omega
  have hmain : (∃ T, F.M2L sourceCentre fieldCentre boxSize level = .ok T) ↔
      ∀ l ≤ F.M2Lloopmax level,
        F.M2Lierr (M2Lseparation sourceCentre fieldCentre) l = 0 := by
    rw [M2L_eq_loop, M2Lloop_ok_iff F level _ _ _ _ hrange]
    constructor
    · intro h l hl
      exact h l (List.mem_range.mpr (by omega))
    · intro h l hl
      have hm := List.mem_range.mp hl
      exact h l (by omega)
  refine ⟨hmain, ?_⟩
  rintro ⟨l, hl, hierr⟩
  cases hM : F.M2L sourceCentre fieldCentre boxSize level with
  | ok T =>
    exact absurd (hmain.mp ⟨T, hM⟩ l hl) hierr
  | error e => exact ⟨e, rfl⟩

/-- The test/trial `Space` collaborators of
`FmmGlobalAssembler::assembleDetachedWeakForm`, reduced to the two DOF
counts the assembler reads (`globalDofCount()` / `flatLocalDofCount()`). -/
structure SpaceModel where
  globalDofCount : ℕ
  flatLocalDofCount : ℕ

/-- The side-effecting construction phases the assembler runs after its
argument checking, in program order: octree construction, point
assignment, parallel near-field caching, parallel far-field caching. -/
inductive AssemblyPhase where
  | octreeBuild
  | assignPoints
  | nearFieldCache
  | farFieldCache
deriving DecidableEq

/-- The `DiscreteFmmBoundaryOperator` the assembler returns, reduced to the
data fixed by the assembler itself: row count, column count, and whether
the Hermitian symmetry flag was set. -/
structure DiscreteFmmBoundaryOperatorModel where
  rowCount : ℕ
  columnCount : ℕ
  hermitianSymmetry : Bool
deriving DecidableEq

/-- `FmmGlobalAssembler::assembleDetachedWeakForm(testSpace, trialSpace,
..., hermitian, fmmTransform)`: with `indexWithGlobalDofs` hard-coded
`true`, the DOF counts are the global DOF counts; a Hermitian request with
mismatched counts throws `std::invalid_argument` before the octree is
constructed; otherwise the octree build, point assignment, near-field
caching and far-field caching run in order and the operator is returned.
The second component lists the phases that ran. -/
def assembleDetachedWeakForm (testSpace trialSpace : SpaceModel)
    (hermitian : Bool) :
    Except String DiscreteFmmBoundaryOperatorModel × List AssemblyPhase :=
  let indexWithGlobalDofs := true
  let testDofCount :=
    if indexWithGlobalDofs then testSpace.globalDofCount
    else testSpace.flatLocalDofCount
  let trialDofCount :=
    if indexWithGlobalDofs then trialSpace.globalDofCount
    else trialSpace.flatLocalDofCount
  if hermitian ∧ testDofCount ≠ trialDofCount then
    (.error ("FmmGlobalAssembler::assembleDetachedWeakForm(): " ++
      "you cannot generate a Hermitian weak form using test and trial " ++
      "spaces with different numbers of DOFs"), [])
  else
    (.ok ⟨testDofCount, trialDofCount, hermitian⟩,
     [AssemblyPhase.octreeBuild, AssemblyPhase.assignPoints,
      AssemblyPhase.nearFieldCache, AssemblyPhase.farFieldCache])

/-- C5: a call to `assembleDetachedWeakForm` with `hermitian = true` and
differing test/trial DOF counts fails immediately with the
invalid-argument error: no operator is returned and no construction phase
(octree build, point assignment, near- or far-field caching) has run. -/
theorem assembleDetachedWeakForm_hermitian_mismatch
    (testSpace trialSpace : SpaceModel)
    (h : testSpace.globalDofCount ≠ trialSpace.globalDofCount) :
    assembleDetachedWeakForm testSpace trialSpace true =
      (.error ("FmmGlobalAssembler::assembleDetachedWeakForm(): " ++
        "you cannot generate a Hermitian weak form using test and trial " ++
        "spaces with different numbers of DOFs"), []) := by
  unfold assembleDetachedWeakForm
  rw [if_pos]
  exact ⟨rfl, h⟩

/-- C5 (witness): spaces with 1 and 2 global DOFs. -/
theorem assembleDetachedWeakForm_hermitian_mismatch_witness :
    (SpaceModel.mk 1 1).globalDofCount ≠ (SpaceModel.mk 2 2).globalDofCount ∧
    assembleDetachedWeakForm (SpaceModel.mk 1 1) (SpaceModel.mk 2 2) true =
      (.error ("FmmGlobalAssembler::assembleDetachedWeakForm(): " ++
        "you cannot generate a Hermitian weak form using test and trial " ++
        "spaces with different numbers of DOFs"), []) :=
  ⟨by decide,
   assembleDetachedWeakForm_hermitian_mismatch (SpaceModel.mk 1 1)
     (SpaceModel.mk 2 2) (by decide)⟩

/-- A same-level octree box, identified by its integer grid coordinates at
that level (the three Morton-number components). -/
abbrev BoxCoord : Type := ℕ × ℕ × ℕ

/-- Two same-level boxes touch (share a face, edge or corner, or coincide):
their coordinates differ by at most one in every axis. -/
def touches (a b : BoxCoord) : Prop :=
  a.1 ≤ b.1 + 1 ∧ b.1 ≤ a.1 + 1 ∧
  a.2.1 ≤ b.2.1 + 1 ∧ b.2.1 ≤ a.2.1 + 1 ∧
  a.2.2 ≤ b.2.2 + 1 ∧ b.2.2 ≤ a.2.2 + 1

/-- The parent box of a box: coordinates halved (the octant structure of
the recursive bounding-box splitting). -/
def parentBox (b : BoxCoord) : BoxCoord := (b.1 / 2, b.2.1 / 2, b.2.2 / 2)

/-- Modelled from the spec: `OctreeNode::makeNeigbourList` has no
implementation under the sources (only its declaration in octree_node.hpp).
Per the spec, "the neighbor list is the set of same-level boxes whose box
touches or overlaps (sharing a face, edge, or corner)" and "empty boxes are
excluded"; `isEmptyAt lvl` is the per-level emptiness predicate
(`OctreeNode::isEmpty`).  `inNeigbourList isEmptyAt lvl n b` states that
box `b` is on the neighbour list of the node at coordinates `n` of level
`lvl`. -/
def inNeigbourList (isEmptyAt : ℕ → BoxCoord → Bool) (lvl : ℕ)
    (n b : BoxCoord) : Prop :=
  b ≠ n ∧ touches n b ∧ isEmptyAt lvl b = false

/-- Modelled from the spec: `OctreeNode::makeInteractionList` has no
implementation under the sources.  Per the spec, "the interaction list is
the set of same-level boxes that are (a) children of the node's parent's
neighbors, AND (b) not already in the node's own neighbor list", with empty
boxes excluded.  The region "reachable via parent's neighbors" comprises
the boxes whose parent touches the node's parent (the parent's neighbours
together with the parent itself — the reading under which the spec's
partition property is self-consistent). -/
def inInteractionList (isEmptyAt : ℕ → BoxCoord → Bool) (lvl : ℕ)
    (n b : BoxCoord) : Prop :=
  b ≠ n ∧ isEmptyAt lvl b = false ∧ touches (parentBox n) (parentBox b) ∧
    ¬ inNeigbourList isEmptyAt lvl n b

/-- If two boxes touch then so do their parents (halving preserves the
Chebyshev-distance-one relation). -/
theorem touches_parentBox {a b : BoxCoord} (h : touches a b) :
    touches (parentBox a) (parentBox b) := by
  obtain ⟨h1, h2, h3, h4, h5, h6⟩ := h
  refine ⟨?_, ?_, ?_, ?_, ?_, ?_⟩ <;> simp only [parentBox] <;> omega

/-- C6: for every non-empty node, the neighbour list and the interaction
list are disjoint, both exclude empty boxes and the node itself, and their
union is exactly the set of non-self, non-empty same-level boxes that are
children of the node's parent's neighbours (boxes whose parent touches the
node's parent) — no box pair is double-counted or dropped between the
near-field and the far-field. -/
theorem neighbour_interaction_partition (isEmptyAt : ℕ → BoxCoord → Bool)
    (lvl : ℕ) (n b : BoxCoord) (hn : isEmptyAt lvl n = false) :
    ¬ (inNeigbourList isEmptyAt lvl n b ∧ inInteractionList isEmptyAt lvl n b) ∧
    (inNeigbourList isEmptyAt lvl n b → isEmptyAt lvl b = false ∧ b ≠ n) ∧
    (inInteractionList isEmptyAt lvl n b → isEmptyAt lvl b = false ∧ b ≠ n) ∧
    ((inNeigbourList isEmptyAt lvl n b ∨ inInteractionList isEmptyAt lvl n b) ↔
      (b ≠ n ∧ isEmptyAt lvl b = false ∧
        touches (parentBox n) (parentBox b))) := by
  refine ⟨?_, ?_, ?_, ?_⟩
  · rintro ⟨hnb, hint⟩
    exact hint.2.2.2 hnb
  · rintro ⟨hne, _, hemp⟩
    exact ⟨hemp, hne⟩
  · rintro ⟨hne, hemp, _, _⟩
    exact ⟨hemp, hne⟩
  · constructor
    · rintro (⟨hne, htch, hemp⟩ | ⟨hne, hemp, hpar, _⟩)
      · exact ⟨hne, hemp, touches_parentBox htch⟩
      · exact ⟨hne, hemp, hpar⟩
    · rintro ⟨hne, hemp, hpar⟩
      by_cases hnb : inNeigbourList isEmptyAt lvl n b
      · exact Or.inl hnb
      · exact Or.inr ⟨hne, hemp, hpar, hnb⟩

/-- C6 (witness): the partition property at a concrete configuration — all
boxes non-empty, level 1, node `(0,0,0)`, box `(1,0,0)`. -/
theorem neighbour_interaction_partition_witness :
    ((fun _ _ => false : ℕ → BoxCoord → Bool) 1 (0, 0, 0) = false) ∧
    (¬ (inNeigbourList (fun _ _ => false) 1 (0, 0, 0) (1, 0, 0) ∧
        inInteractionList (fun _ _ => false) 1 (0, 0, 0) (1, 0, 0)) ∧
    (inNeigbourList (fun _ _ => false) 1 (0, 0, 0) (1, 0, 0) →
      (fun _ _ => false : ℕ → BoxCoord → Bool) 1 (1, 0, 0) = false ∧
        (1, 0, 0) ≠ ((0, 0, 0) : BoxCoord)) ∧
    (inInteractionList (fun _ _ => false) 1 (0, 0, 0) (1, 0, 0) →
      (fun _ _ => false : ℕ → BoxCoord → Bool) 1 (1, 0, 0) = false ∧
        (1, 0, 0) ≠ ((0, 0, 0) : BoxCoord)) ∧
    ((inNeigbourList (fun _ _ => false) 1 (0, 0, 0) (1, 0, 0) ∨
        inInteractionList (fun _ _ => false) 1 (0, 0, 0) (1, 0, 0)) ↔
      ((1, 0, 0) ≠ ((0, 0, 0) : BoxCoord) ∧
        (fun _ _ => false : ℕ → BoxCoord → Bool) 1 (1, 0, 0) = false ∧
        touches (parentBox (0, 0, 0)) (parentBox (1, 0, 0))))) :=
  ⟨rfl, neighbour_interaction_partition (fun _ _ => false) 1 (0, 0, 0)
    (1, 0, 0) rfl⟩

/-- `VtkWriter::DataType`: the two kinds of data attachment. -/
inductive DataType where
  | CELL_DATA
  | VERTEX_DATA
deriving DecidableEq

/-- The writer operations `exportToVtk` could perform on the `VtkWriter`
(attaching data, writing files); the theorems show none is ever reached. -/
inductive VtkEffect where
  | addCellData
  | addVertexData
  | writeFile
  | pwriteFile
deriving DecidableEq

/-- One element of the grid's leaf view, reduced to the two facts
`evaluateAtSpecialPoints` branches on: the identity of
`&m_space.basis(element)` (a pointer, modelled by a number) and the
element's corner count from the raw geometry. -/
structure ElementInfo where
  basisId : ℕ
  cornerCount : ℕ
deriving DecidableEq

/-- The `GridFunction` receiver of `exportToVtk`, reduced to what that code
path reads: the grid dimension, the leaf-view elements in iteration order,
the leaf-view vertex count and the coefficient vector `m_coefficients`
(whose values none of the control flow depends on). -/
structure GridFunction where
  gridDim : ℕ
  elements : List ElementInfo
  vertexCount : ℕ
  coefficients : List ℂ

/-- Whether a `(gridDim, activeCornerCount)` combination is one of the
supported element types of `evaluateAtSpecialPoints` — linear segment,
triangle or quadrilateral.  Both the `CELL_DATA` and the `VERTEX_DATA`
branch test exactly these three combinations and otherwise throw
`std::runtime_error("GridFunction::evaluateAtVertices(): unsupported
element type")`. -/
def supportedElementType (gridDim cornerCount : ℕ) : Bool :=
  (gridDim == 1 && cornerCount == 2) || (gridDim == 2 && cornerCount == 3) ||
    (gridDim == 2 && cornerCount == 4)

/-- The set `uniqueBasesAndCornerCounts` of `evaluateAtSpecialPoints`: the
distinct `(basis pointer, corner count)` pairs of the grid's elements.  The
C++ `std::set` iterates them ordered by pointer value, which is
unspecified; modelled in first-occurrence order.  Every theorem below
depends only on order-independent consequences. -/
def uniqueBasesAndCornerCounts (elements : List ElementInfo) : List (ℕ × ℕ) :=
  (elements.map (fun el => (el.basisId, el.cornerCount))).dedup

/-- The loop of `evaluateAtSpecialPoints` over the unique
basis/corner-count combinations: for each combination, the local
coordinates are set up (throwing the unsupported-element-type
`runtime_error` for anything but a segment, triangle or quadrilateral), and
then the inner loop over the elements reaches, at the first element whose
basis pointer matches the active basis, the unconditional
`throw std::logic_error("NOT WORKING!!!")` (the expression evaluation and
all writes to `result` after it are unreachable).  The matrix bookkeeping
before the throw mutates only locals and the `result` out-parameter, which
no caller can observe past the throw, so the outcome is reduced to
`Except String Unit`. -/
def evaluateLoop (g : GridFunction) : List (ℕ × ℕ) → Except String Unit
  | [] => .ok ()
  | (b, c) :: rest =>
    if supportedElementType g.gridDim c = false then
      .error "GridFunction::evaluateAtVertices(): unsupported element type"
    else if g.elements.any (fun el => el.basisId == b) then
      .error "NOT WORKING!!!"
    else evaluateLoop g rest

/-- `GridFunction::evaluateAtSpecialPoints(dataType, result)`: the
data-type check (dead for the two-value enum), then the unique-combination
loop; a normal return happens exactly when the loop exhausts its
combinations (in particular for an empty grid). -/
def GridFunction.evaluateAtSpecialPoints (g : GridFunction)
    (dataType : DataType) : Except String Unit :=
  if dataType ≠ DataType.CELL_DATA ∧ dataType ≠ DataType.VERTEX_DATA then
    .error "GridFunction::evaluateAtSpecialPoints(): invalid data type"
  else evaluateLoop g (uniqueBasesAndCornerCounts g.elements)

/-- `GridFunction::exportToVtk(dataType, dataLabel, fileNamesBase,
filesPath, type)`: evaluates the data (any throw propagates), obtains the
leaf view and the writer, and then unconditionally throws
`std::logic_error("NOT WORKING!!!")` — the `addCellData`/`addVertexData`
calls are commented out in the source and the `write`/`pwrite` calls sit
after the unconditional `throw`.  Returns the thrown error together with
the list of writer operations performed. -/
def GridFunction.exportToVtk (g : GridFunction) (dataType : DataType)
    (dataLabel fileNamesBase : String) (filesPath : Option String)
    (outputType : ℕ) : Except String Unit × List VtkEffect :=
  match g.evaluateAtSpecialPoints dataType with
  | .error e => (.error e, [])
  | .ok _ => (.error "NOT WORKING!!!", [])

/-- On a list of combinations all of supported type, the evaluation loop
either returns normally or throws precisely the `NOT WORKING!!!` logic
error. -/
theorem evaluateLoop_all_supported (g : GridFunction) (combos : List (ℕ × ℕ))
    (h : ∀ bc ∈ combos, supportedElementType g.gridDim bc.2 = true) :
    evaluateLoop g combos = .ok () ∨
      evaluateLoop g combos = .error "NOT WORKING!!!" := by
  induction combos with
  | nil => exact Or.inl rfl
  | cons bc rest ih =>
    obtain ⟨b, c⟩ := bc
    have hbc : supportedElementType g.gridDim c = true :=
      h (b, c) (List.mem_cons_self _ _)
    unfold evaluateLoop
    rw [if_neg (by simp [hbc])]
    by_cases hmatch : g.elements.any (fun el => el.basisId == b)
    · rw [if_pos hmatch]
      exact Or.inr rfl
    · rw [if_neg hmatch]
      exact ih (fun x hx => h x (List.mem_cons_of_mem _ hx))

/-- C8 (counterexample): a grid function over a 2-dimensional grid whose
single element is a pentagon (corner count 5) — an unsupported element
type. -/
def gridFunctionPentagon : GridFunction where
  gridDim := 2
  elements := [⟨0, 5⟩]
  vertexCount := 5
  coefficients := []

/-- C8 (counterexample): invoking `exportToVtk` on `gridFunctionPentagon`
raises the `runtime_error` "unsupported element type" thrown inside
`evaluateAtSpecialPoints`, not the internal `logic_error`
`NOT WORKING!!!` the claim asserts for every invocation. -/
theorem exportToVtk_unsupported_element_cex :
    (gridFunctionPentagon.exportToVtk DataType.CELL_DATA "u" "out" none 0).1 =
      .error "GridFunction::evaluateAtVertices(): unsupported element type" ∧
    ((gridFunctionPentagon.exportToVtk DataType.CELL_DATA "u" "out" none 0).1 =
      .error "NOT WORKING!!!") = False := by
  constructor
  · rfl
  · simp only [eq_iff_iff, iff_false]
    intro h
    rw [show (gridFunctionPentagon.exportToVtk DataType.CELL_DATA "u" "out"
        none 0).1 =
      .error "GridFunction::evaluateAtVertices(): unsupported element type"
      from rfl] at h
    exact absurd (Except.error.inj h) (by decide)

/-- C8 (amended): every invocation of `GridFunction::exportToVtk` — any
data type, labels, paths and output type — ends in an error; no VTK data
is ever attached to the writer and nothing is written to any file (the
receiver is untouched: the embedded function has no way to modify `g`).
Whenever every element of the grid is of a supported type (segment,
triangle, quadrilateral) — in particular for the empty grid — the raised
error is precisely the internal `std::logic_error("NOT WORKING!!!")`;
a grid with unsupported element types raises the unsupported-element-type
`runtime_error` from `evaluateAtSpecialPoints` instead. -/
theorem exportToVtk_always_fails_no_writes (g : GridFunction)
    (dataType : DataType) (dataLabel fileNamesBase : String)
    (filesPath : Option String) (outputType : ℕ) :
    (g.exportToVtk dataType dataLabel fileNamesBase filesPath outputType).2
        = [] ∧
    (∃ e, (g.exportToVtk dataType dataLabel fileNamesBase filesPath
        outputType).1 = .error e) ∧
    ((∀ el ∈ g.elements,
        supportedElementType g.gridDim el.cornerCount = true) →
      (g.exportToVtk dataType dataLabel fileNamesBase filesPath
        outputType).1 = .error "NOT WORKING!!!") := by
  have htype : g.evaluateAtSpecialPoints dataType =
      evaluateLoop g (uniqueBasesAndCornerCounts g.elements) := by
    cases dataType <;> simp [GridFunction.evaluateAtSpecialPoints]
  refine ⟨?_, ?_, ?_⟩
  · unfold GridFunction.exportToVtk
    cases g.evaluateAtSpecialPoints dataType <;> rfl
  · unfold GridFunction.exportToVtk
    cases g.evaluateAtSpecialPoints dataType with
    | error e => exact ⟨e, rfl⟩
    | ok u => exact ⟨"NOT WORKING!!!", rfl⟩
  · intro hsup
    have hcombos : ∀ bc ∈ uniqueBasesAndCornerCounts g.elements,
        supportedElementType g.gridDim bc.2 = true := by
      intro bc hbc
      have hbc' := List.mem_dedup.mp hbc
      obtain ⟨el, hel, helbc⟩ := List.mem_map.mp hbc'
      have := hsup el hel
      rw [← helbc]
      exact this
    rcases evaluateLoop_all_supported g _ hcombos with hok | herr
    · unfold GridFunction.exportToVtk
      rw [htype, hok]
    · unfold GridFunction.exportToVtk
      rw [htype, herr]

/-- The `SeparableNumericalTestKernelTrialIntegrator` object, reduced to
the quadrature data it stores plus `integrateCpuEntry`, an abstract field
standing for the per-entry quadrature summation of `integrateCpu` (it
combines the external geometry factory, kernel and basis-expression
collaborators, whose values none of the claims depend on).  Quadrature
points are columns of the 2-row local-coordinate matrices. -/
structure SeparableNumericalTestKernelTrialIntegrator where
  localTestQuadPoints : List (ℝ × ℝ)
  localTrialQuadPoints : List (ℝ × ℝ)
  testQuadWeights : List ℝ
  trialQuadWeights : List ℝ
  integrateCpuEntry : List (ℕ × ℕ) → ℕ → ℕ → ℕ → ℕ → ℕ → ℂ

/-- The constructor of `SeparableNumericalTestKernelTrialIntegrator`: it
stores the four quadrature arrays (and the collaborator references) after
checking that each point matrix has exactly as many columns as its weight
vector has entries, throwing `std::invalid_argument` otherwise. -/
def mkSeparableIntegrator (localTestQuadPoints localTrialQuadPoints : List (ℝ × ℝ))
    (testQuadWeights trialQuadWeights : List ℝ)
    (entry : List (ℕ × ℕ) → ℕ → ℕ → ℕ → ℕ → ℕ → ℂ) :
    Except String SeparableNumericalTestKernelTrialIntegrator :=
  if localTestQuadPoints.length ≠ testQuadWeights.length then
    .error ("SeparableNumericalTestKernelTrialIntegrator::" ++
      "SeparableNumericalTestKernelTrialIntegrator(): " ++
      "numbers of test points and weight do not match")
  else if localTrialQuadPoints.length ≠ trialQuadWeights.length then
    .error ("SeparableNumericalTestKernelTrialIntegrator::" ++
      "SeparableNumericalTestKernelTrialIntegrator(): " ++
      "numbers of trial points and weight do not match")
  else
    .ok ⟨localTestQuadPoints, localTrialQuadPoints, testQuadWeights,
      trialQuadWeights, entry⟩

/-- C9: the integrator constructor raises an invalid-argument error exactly
when the test point/weight counts differ or the trial point/weight counts
differ; when both pairs of counts match, construction succeeds and the
points and weights are stored unmodified. -/
theorem separableIntegrator_ctor_spec
    (tp trp : List (ℝ × ℝ)) (tw trw : List ℝ)
    (entry : List (ℕ × ℕ) → ℕ → ℕ → ℕ → ℕ → ℕ → ℂ) :
    ((∃ I, mkSeparableIntegrator tp trp tw trw entry = .ok I) ↔
      (tp.length = tw.length ∧ trp.length = trw.length)) ∧
    ((∃ e, mkSeparableIntegrator tp trp tw trw entry = .error e) ↔
      ¬ (tp.length = tw.length ∧ trp.length = trw.length)) ∧
    (∀ I, mkSeparableIntegrator tp trp tw trw entry = .ok I →
      I.localTestQuadPoints = tp ∧ I.localTrialQuadPoints = trp ∧
      I.testQuadWeights = tw ∧ I.trialQuadWeights = trw) := by
  unfold mkSeparableIntegrator
  by_cases h1 : tp.length = tw.length
  · by_cases h2 : trp.length = trw.length
    · rw [if_neg (by simp [h1]), if_neg (by simp [h2])]
      refine ⟨?_, ?_, ?_⟩
      · simp [h1, h2]
      · simp [h1, h2]
      · intro I hI
        cases hI
        exact ⟨rfl, rfl, rfl, rfl⟩
    · rw [if_neg (by simp [h1]), if_pos h2]
      refine ⟨?_, ?_, ?_⟩
      · simp [h2]
      · simp [h2]
      · intro I hI
        exact absurd hI (by simp)
  · rw [if_pos h1]
    refine ⟨?_, ?_, ?_⟩
    · simp [h1]
    · simp [h1]
    · intro I hI
      exact absurd hI (by simp)

/-- An `arma::Cube<ValueType>`: its three extents together with its entry
values. -/
structure Cube where
  n_rows : ℕ
  n_cols : ℕ
  n_slices : ℕ
  entry : ℕ → ℕ → ℕ → ℂ

/-- The element-index-pair CPU overload
`SeparableNumericalTestKernelTrialIntegrator::integrateCpu(elementIndexPairs,
testBasis, trialBasis, result)`, with the `Basis` collaborators reduced to
their `size()`: when the pair list is empty or either quadrature rule has
zero points the function returns at once, leaving `result` untouched;
otherwise it calls `result.set_size(testDofCount, trialDofCount,
geometryPairCount)` and fills every entry with the quadrature sums
(abstracted by the stored `integrateCpuEntry`). -/
def integrateCpu (I : SeparableNumericalTestKernelTrialIntegrator)
    (elementIndexPairs : List (ℕ × ℕ)) (testBasisSize trialBasisSize : ℕ)
    (result : Cube) : Cube :=
  let testPointCount := I.localTestQuadPoints.length
  let trialPointCount := I.localTrialQuadPoints.length
  let geometryPairCount := elementIndexPairs.length
  if testPointCount = 0 ∨ trialPointCount = 0 ∨ geometryPairCount = 0 then
    result
  else
    { n_rows := testBasisSize
      n_cols := trialBasisSize
      n_slices := geometryPairCount
      entry := fun i j k =>
        I.integrateCpuEntry elementIndexPairs testBasisSize trialBasisSize
          i j k }

/-- C10: when the element-index-pair list is empty, or the test quadrature
rule has zero points, or the trial quadrature rule has zero points, the CPU
path of `integrate` returns immediately and the output cube `result` is
returned completely unchanged — neither resized to
`(testDofCount, trialDofCount, pairCount)` nor zero-filled. -/
theorem integrateCpu_early_return_frame
    (I : SeparableNumericalTestKernelTrialIntegrator)
    (elementIndexPairs : List (ℕ × ℕ)) (testBasisSize trialBasisSize : ℕ)
    (result : Cube)
    (h : elementIndexPairs = [] ∨ I.localTestQuadPoints = [] ∨
      I.localTrialQuadPoints = []) :
    integrateCpu I elementIndexPairs testBasisSize trialBasisSize result =
      result := by
  unfold integrateCpu
  rw [if_pos]
  rcases h with h | h | h
  · exact Or.inr (Or.inr (by simp [h]))
  · exact Or.inl (by simp [h])
  · exact Or.inr (Or.inl (by simp [h]))

/-- A concrete integrator with empty quadrature rules, for the frame-effect
witness. -/
def mkIntegratorTriv : SeparableNumericalTestKernelTrialIntegrator :=
  ⟨[], [], [], [], fun _ _ _ _ _ _ => 0⟩

/-- C10 (witness): with an empty pair list and a nonempty cube of extents
`(1, 2, 3)` and constant entry `5`, `integrateCpu` returns the cube as it
was. -/
theorem integrateCpu_early_return_frame_witness :
    (([] : List (ℕ × ℕ)) = [] ∨
      (mkIntegratorTriv.localTestQuadPoints = []) ∨
      (mkIntegratorTriv.localTrialQuadPoints = [])) ∧
    integrateCpu mkIntegratorTriv [] 4 4 (Cube.mk 1 2 3 (fun _ _ _ => 5)) =
      Cube.mk 1 2 3 (fun _ _ _ => 5) :=
  ⟨Or.inl rfl,
   integrateCpu_early_return_frame mkIntegratorTriv [] 4 4
     (Cube.mk 1 2 3 (fun _ _ _ => 5)) (Or.inl rfl)⟩
